import Mathlib

/-!
Verification of the JWT decomposition/reassembly protocol of the
microservices-demo-jwt-split repository.

Go strings are byte sequences, so every credential, metadata value and
codec component is modelled as a `List Nat` of byte values.  The base64url
codec models Go's `encoding/base64` `RawURLEncoding` in its default
(non-strict) mode: no padding, decoding rejects invalid bytes and a final
group of one character, and ignores non-zero trailing bits in the final
character.
-/

namespace JwtSplit

/-- Go strings are byte sequences; they are modelled as lists of byte values. -/
abbrev GoStr : Type := List Nat

/-- Byte values of an ASCII Lean string literal, used to write concrete
Go strings in the statements below. -/
def bytesOfAscii (s : String) : GoStr :=
  s.data.map Char.toNat

/-- `strings.Split(s, ".")` of Go: split a byte string at every dot
(byte 46); the result always has (number of dots + 1) segments. -/
def strSplitDot : GoStr → List GoStr
  | [] => [[]]
  | b :: rest =>
    if b = 46 then
      [] :: strSplitDot rest
    else
      match strSplitDot rest with
      | [] => [[b]]
      | seg :: segs => (b :: seg) :: segs

/-- The base64url alphabet byte for a six-bit value (values of 64 and
above cannot arise from byte input and fall through to the last byte). -/
def b64Byte (n : Nat) : Nat :=
  if n < 26 then 65 + n
  else if n < 52 then 97 + (n - 26)
  else if n < 62 then 48 + (n - 52)
  else if n = 62 then 45
  else 95

/-- The six-bit value of a base64url alphabet byte, `none` for a byte
outside the alphabet. -/
def sixBitOf (b : Nat) : Option Nat :=
  if 65 ≤ b ∧ b ≤ 90 then some (b - 65)
  else if 97 ≤ b ∧ b ≤ 122 then some (26 + (b - 97))
  else if 48 ≤ b ∧ b ≤ 57 then some (52 + (b - 48))
  else if b = 45 then some 62
  else if b = 95 then some 63
  else none

/-- Go `base64.RawURLEncoding.EncodeToString`: three input bytes become
four alphabet bytes; one or two leftover bytes become two or three. -/
def rawURLEncode : GoStr → GoStr
  | [] => []
  | [x] => [b64Byte (x / 4), b64Byte (x % 4 * 16)]
  | [x, y] => [b64Byte (x / 4), b64Byte (x % 4 * 16 + y / 16), b64Byte (y % 16 * 4)]
  | x :: y :: z :: rest =>
    b64Byte (x / 4) :: b64Byte (x % 4 * 16 + y / 16) ::
      b64Byte (y % 16 * 4 + z / 64) :: b64Byte (z % 64) :: rawURLEncode rest

/-- Go `base64.RawURLEncoding.DecodeString` in its default non-strict
mode: fails on a byte outside the alphabet or on input length 1 mod 4;
in a final group of two or three characters the unused trailing bits are
ignored, not checked. -/
def rawURLDecode : GoStr → Option GoStr
  | [] => some []
  | [_] => none
  | [a, b] =>
    match sixBitOf a, sixBitOf b with
    | some a6, some b6 => some [a6 * 4 + b6 / 16]
    | _, _ => none
  | [a, b, c] =>
    match sixBitOf a, sixBitOf b, sixBitOf c with
    | some a6, some b6, some c6 =>
      some [a6 * 4 + b6 / 16, b6 % 16 * 16 + c6 / 4]
    | _, _, _ => none
  | a :: b :: c :: d :: rest =>
    match sixBitOf a, sixBitOf b, sixBitOf c, sixBitOf d, rawURLDecode rest with
    | some a6, some b6, some c6, some d6, some tl =>
      some ((a6 * 4 + b6 / 16) :: (b6 % 16 * 16 + c6 / 4) :: (c6 % 4 * 64 + d6) :: tl)
    | _, _, _, _, _ => none

theorem sixBitOf_b64Byte : ∀ n, n < 64 → sixBitOf (b64Byte n) = some n := by
  decide

theorem b64Byte_ne_dot (n : Nat) : b64Byte n ≠ 46 := by
  unfold b64Byte
  split
  · omega
  · split
    · omega
    · split
      · omega
      · split
        · omega
        · omega

theorem strSplitDot_ne_nil (l : GoStr) : strSplitDot l ≠ [] := by
  induction l with
  | nil => simp [strSplitDot]
  | cons b rest ih =>
    simp only [strSplitDot]
    split
    · simp
    · split
      · simp
      · simp

theorem strSplitDot_nodot (l : GoStr) (h : 46 ∉ l) : strSplitDot l = [l] := by
  induction l with
  | nil => rfl
  | cons b rest ih =>
    have hb : b ≠ 46 := fun hb => h (hb ▸ List.mem_cons_self b rest)
    have hr : strSplitDot rest = [rest] := ih fun hm => h (List.mem_cons_of_mem b hm)
    simp [strSplitDot, hb, hr]

theorem strSplitDot_append (l m : GoStr) (hl : 46 ∉ l) (s : GoStr) (ss : List GoStr)
    (hm : strSplitDot m = s :: ss) : strSplitDot (l ++ m) = (l ++ s) :: ss := by
  induction l with
  | nil => simpa using hm
  | cons b rest ih =>
    have hb : b ≠ 46 := fun hb => hl (hb ▸ List.mem_cons_self b rest)
    have hr := ih fun hmem => hl (List.mem_cons_of_mem b hmem)
    simp [strSplitDot, hb, hr]

theorem mem_strSplitDot_nodot (l : GoStr) : ∀ seg ∈ strSplitDot l, 46 ∉ seg := by
  induction l with
  | nil =>
    intro seg hseg
    simp [strSplitDot] at hseg
    simp [hseg]
  | cons b rest ih =>
    intro seg hseg
    by_cases hb : b = 46
    · simp [strSplitDot, hb] at hseg
      rcases hseg with hseg | hseg
      · simp [hseg]
      · exact ih seg hseg
    · obtain ⟨s0, ss0, hrest⟩ : ∃ s0 ss0, strSplitDot rest = s0 :: ss0 := by
        cases hr : strSplitDot rest with
        | nil => exact absurd hr (strSplitDot_ne_nil rest)
        | cons s0 ss0 => exact ⟨s0, ss0, rfl⟩
      simp [strSplitDot, hb, hrest] at hseg
      rcases hseg with hseg | hseg
      · intro hmem
        rw [hseg] at hmem
        rcases List.mem_cons.mp hmem with h46 | h46
        · exact hb h46.symm
        · exact ih s0 (hrest ▸ List.mem_cons_self s0 ss0) h46
      · exact ih seg (hrest ▸ List.mem_cons_of_mem s0 hseg)

/-- gRPC metadata of one call: named fields, each possibly repeated. -/
abbrev Metadata : Type := List (String × GoStr)

/-- Go `md.Get(key)`: every value carried under `key`, in order. -/
def mdGet (md : Metadata) (key : String) : List GoStr :=
  (md.filter fun entry => decide (entry.1 = key)).map Prod.snd

/-- Go `strings.TrimPrefix(s, pre)`: drops `pre` when it leads `s`,
otherwise returns `s` unchanged. -/
def goTrimPrefix (s pre : GoStr) : GoStr :=
  if s.take pre.length = pre then s.drop pre.length else s

/-- The byte string of the conventional field prefix, `"Bearer "`. -/
def bearerBytes : GoStr := bytesOfAscii "Bearer "

namespace Frontend

/-- `JWTHeaderB64` of src/src/frontend/jwt_compression.go: the hardcoded
base64url encoding of the fixed JWT header. -/
def JWTHeaderB64 : GoStr := bytesOfAscii "eyJhbGciOiJSUzI1NiIsInR5cCI6IkpXVCJ9"

/-- `JWTComponents` of src/src/frontend/jwt_compression.go: the 2-way
decomposition, raw JSON payload plus untouched signature. -/
structure JWTComponents where
  payload : GoStr
  signature : GoStr
deriving DecidableEq, Repr

/-- `DecomposeJWT` of src/src/frontend/jwt_compression.go: split on dots,
require exactly 3 parts, base64url-decode only the payload segment.  This
2-way codec is also the codec the checkoutservice package links against. -/
def DecomposeJWT (jwtToken : GoStr) : Option JWTComponents :=
  match strSplitDot jwtToken with
  | [_, p, s] => (rawURLDecode p).map fun payloadJSON => ⟨payloadJSON, s⟩
  | _ => none

/-- `ReassembleJWT` of src/src/frontend/jwt_compression.go: re-encode the
payload and join the hardcoded header, payload and signature with dots.
The Go function always returns a nil error; it is total. -/
def ReassembleJWT (components : JWTComponents) : GoStr :=
  JWTHeaderB64 ++ [46] ++ rawURLEncode components.payload ++ [46] ++ components.signature

end Frontend

namespace Shipping

/-- `JWTComponents` of src/src/shippingservice/jwt_compression.go: the
3-way decomposition that keeps the original header segment. -/
structure JWTComponents where
  header : GoStr
  payload : GoStr
  signature : GoStr
deriving DecidableEq, Repr

/-- `DecomposeJWT` of src/src/shippingservice/jwt_compression.go: split on
dots, require exactly 3 parts, keep the header verbatim and decode only
the payload segment. -/
def DecomposeJWT (jwtToken : GoStr) : Option JWTComponents :=
  match strSplitDot jwtToken with
  | [h, p, s] => (rawURLDecode p).map fun payloadJSON => ⟨h, payloadJSON, s⟩
  | _ => none

/-- `ReassembleJWT` of src/src/shippingservice/jwt_compression.go: join
the carried header, the re-encoded payload and the signature with dots. -/
def ReassembleJWT (components : JWTComponents) : GoStr :=
  components.header ++ [46] ++ rawURLEncode components.payload ++ [46] ++ components.signature

/-- `jwtUnaryServerInterceptor` of src/src/shippingservice/jwt_forwarder.go:
the token the interceptor computes for the call (`none` when no
credential-bearing field is present).  When `x-jwt-payload` is present it
builds `JWTComponents` setting only Payload and Signature, so the Header
field keeps Go's zero value, the empty string. -/
def jwtServerToken (md : Metadata) : Option GoStr :=
  match mdGet md "x-jwt-payload" with
  | payloadVal :: _ =>
    some (ReassembleJWT ⟨[], payloadVal, (mdGet md "x-jwt-sig").headD []⟩)
  | [] =>
    match mdGet md "authorization" with
    | a :: _ => some (goTrimPrefix a bearerBytes)
    | [] => none

end Shipping

namespace Checkout

/-- The per-call context values the checkoutservice server interceptor may
store (src/src/checkoutservice/jwt_forwarder.go): pass-through components
under their own keys, or the whole token. -/
structure CallCtx where
  jwtPayload : Option GoStr
  jwtSig : Option GoStr
  jwtToken : Option GoStr
deriving DecidableEq, Repr

/-- `jwtUnaryServerInterceptor` of src/src/checkoutservice/jwt_forwarder.go:
capture `x-jwt-payload`/`x-jwt-sig` verbatim when the decomposed form is
present, else the token of the `authorization` field when non-empty. -/
def serverCapture (md : Metadata) : CallCtx :=
  match mdGet md "x-jwt-payload" with
  | payloadVal :: _ =>
    { jwtPayload := some payloadVal
      jwtSig := some ((mdGet md "x-jwt-sig").headD [])
      jwtToken := none }
  | [] =>
    match mdGet md "authorization" with
    | a :: _ =>
      let tok := goTrimPrefix a bearerBytes
      { jwtPayload := none, jwtSig := none
        jwtToken := if tok = [] then none else some tok }
    | [] => { jwtPayload := none, jwtSig := none, jwtToken := none }

/-- The fallback half of `jwtUnaryClientInterceptor`
(src/src/checkoutservice/jwt_forwarder.go, lines 114-140): forward the
whole token, decomposed when the flag is on, as `Bearer` otherwise, or
nothing when no token is in the context.  The checkoutservice links
against the same 2-way codec as the frontend (its own copy of
jwt_compression.go is not in the snapshot), so `Frontend.DecomposeJWT`
stands for it. -/
def clientFallback (enabled : Bool) (c : CallCtx) : List (String × GoStr) :=
  match c.jwtToken with
  | none => []
  | some tok =>
    if tok = [] then []
    else if enabled then
      match Frontend.DecomposeJWT tok with
      | none => [("authorization", bearerBytes ++ tok)]
      | some comps => [("x-jwt-payload", comps.payload), ("x-jwt-sig", comps.signature)]
    else [("authorization", bearerBytes ++ tok)]

/-- `jwtUnaryClientInterceptor` of src/src/checkoutservice/jwt_forwarder.go:
the credential fields added to the outgoing call.  With the flag on and
both components present and the payload non-empty, pass them through
verbatim; otherwise fall back to the whole-token path. -/
def clientEmit (enabled : Bool) (c : CallCtx) : List (String × GoStr) :=
  if enabled then
    match c.jwtPayload, c.jwtSig with
    | some payloadVal, some sigVal =>
      if payloadVal = [] then clientFallback enabled c
      else [("x-jwt-payload", payloadVal), ("x-jwt-sig", sigVal)]
    | _, _ => clientFallback enabled c
  else clientFallback enabled c

end Checkout

/-- The 4-way `JWTComponents` (static, session and dynamic claim subsets
plus signature) used by src/unnamed/part_002 and src/unnamed/part_003. -/
structure Components4 where
  static : GoStr
  session : GoStr
  dynamic : GoStr
  signature : GoStr
deriving DecidableEq, Repr

namespace FrontendWire

/-- `jwtUnaryClientInterceptor` of src/unnamed/part_002 (lines 356-420):
the credential fields set on the outgoing call, given the token string
found in the call context.  The Go 4-way `DecomposeJWT` this interceptor
calls is not among the repository's files (only the Node analogue,
src/unnamed/part_000, is), so the codec is a parameter `decompose4`; the
theorems below assume of it only the spec's FormatError clause (§4.1:
exactly three dot-separated segments, else failure) or nothing at all.
An empty token takes the code's no-token path (its claims-regeneration
fallback, whose code is also not in the snapshot, applies only when the
context holds claims; here the context is modelled by the token alone),
so nothing is emitted. -/
def clientEmit (decompose4 : GoStr → Option Components4) (enabled : Bool)
    (tokenStr : GoStr) : List (String × GoStr) :=
  if tokenStr = [] then []
  else if enabled then
    match decompose4 tokenStr with
    | none => [("authorization", bearerBytes ++ tokenStr)]
    | some c =>
      [("x-jwt-static", c.static), ("x-jwt-session", c.session),
        ("x-jwt-dynamic", c.dynamic), ("x-jwt-sig", c.signature)]
  else [("authorization", bearerBytes ++ tokenStr)]

end FrontendWire

namespace CheckoutWire

/-- `jwtUnaryServerInterceptor` of src/unnamed/part_003 (lines 15-70), the
4-way checkoutservice inbound adapter.  The outer `none` models a Go
runtime panic aborting the call: the code evaluates
`md.Get("x-jwt-session")[0]` without checking that the field is present,
which panics with index out of range when `x-jwt-static` is present but
`x-jwt-session` is absent.  `some tok?` means the handler runs with the
(optional) reassembled or extracted token.  The Go 4-way `ReassembleJWT`
it calls is not among the repository's files, so it is a parameter. -/
def serverOutcome (reassemble4 : Components4 → Option GoStr)
    (md : Metadata) : Option (Option GoStr) :=
  match mdGet md "x-jwt-static" with
  | staticVal :: _ =>
    let dynamicVal := (mdGet md "x-jwt-dynamic").headD []
    let sigVal := (mdGet md "x-jwt-sig").headD []
    match (mdGet md "x-jwt-session").head? with
    | none => none
    | some sessionVal =>
      match reassemble4 ⟨staticVal, sessionVal, dynamicVal, sigVal⟩ with
      | none => some none
      | some tok => some (if tok = [] then none else some tok)
  | [] =>
    match mdGet md "authorization" with
    | a :: _ =>
      let tok := goTrimPrefix a bearerBytes
      some (if tok = [] then none else some tok)
    | [] => some none

end CheckoutWire

namespace Payment

/-- The 2-way component object of src/src/paymentservice/jwt_compression.js
(`decomposeJWT`'s result: raw JSON payload and untouched signature). -/
structure Components2 where
  payload : GoStr
  signature : GoStr
deriving DecidableEq, Repr

/-- Node `Buffer.from(s, 'base64url')`: a total, lenient decoder that
skips bytes outside the alphabet and drops a dangling final character,
modelled by filtering to the alphabet first and then grouping. -/
def lenientGroups : GoStr → GoStr
  | [] => []
  | [_] => []
  | [a, b] =>
    [(sixBitOf a).getD 0 * 4 + (sixBitOf b).getD 0 / 16]
  | [a, b, c] =>
    [(sixBitOf a).getD 0 * 4 + (sixBitOf b).getD 0 / 16,
      (sixBitOf b).getD 0 % 16 * 16 + (sixBitOf c).getD 0 / 4]
  | a :: b :: c :: d :: rest =>
    ((sixBitOf a).getD 0 * 4 + (sixBitOf b).getD 0 / 16) ::
      ((sixBitOf b).getD 0 % 16 * 16 + (sixBitOf c).getD 0 / 4) ::
      ((sixBitOf c).getD 0 % 4 * 64 + (sixBitOf d).getD 0) :: lenientGroups rest

/-- See `lenientGroups`. -/
def lenientDecode (s : GoStr) : GoStr :=
  lenientGroups (s.filter fun b => (sixBitOf b).isSome)

/-- `decomposeJWT` of src/src/paymentservice/jwt_compression.js: null for
a falsy token or one without exactly three dot-separated segments;
otherwise the leniently decoded payload and the verbatim signature (the
decode is total, so the catch branch never fires). -/
def decomposeJWT (jwt : Option GoStr) : Option Components2 :=
  if jwt = none ∨ jwt = some [] then none
  else
    match strSplitDot (jwt.getD []) with
    | [_, p, s] => some ⟨lenientDecode p, s⟩
    | _ => none

/-- A JS template literal `Bearer ${jwt}` renders null as the text
`null` and a string as itself. -/
def jsText : Option GoStr → GoStr
  | none => bytesOfAscii "null"
  | some s => s

/-- `addCompressedJWT` of src/src/paymentservice/jwt_compression.js
(lines 120-140): the credential fields set on the outgoing metadata.  A
falsy token or a disabled flag takes the first fallback, which
interpolates the token into `Bearer ${jwt}` even when it is null. -/
def addCompressedJWT (enabled : Bool) (jwt : Option GoStr) : List (String × GoStr) :=
  if jwt = none ∨ jwt = some [] ∨ enabled = false then
    [("authorization", bearerBytes ++ jsText jwt)]
  else
    match decomposeJWT jwt with
    | none => [("authorization", bearerBytes ++ jwt.getD [])]
    | some c => [("x-jwt-payload", c.payload), ("x-jwt-sig", c.signature)]

end Payment

namespace Retry

/-- `maxRetries` of src/unnamed/part_002 (line 27). -/
def maxRetries : Nat := 3

/-- `retryDelay` of src/unnamed/part_002 (line 28), in milliseconds. -/
def retryDelay : Nat := 100

/-- The gRPC status codes the retry logic distinguishes. -/
inductive StatusCode
  | unavailable
  | deadlineExceeded
  | aborted
  | internal
  | unknown
deriving DecidableEq, Repr

/-- The outcome of one invocation: success, an error carrying a gRPC
status, or an error `status.FromError` cannot read a status from. -/
inductive RpcResult
  | ok
  | errStatus (c : StatusCode)
  | errOther
deriving DecidableEq, Repr

/-- `shouldRetry` of src/unnamed/part_002 (lines 32-49): retry only on
Unavailable, DeadlineExceeded or Aborted status errors. -/
def shouldRetry : RpcResult → Bool
  | .ok => false
  | .errOther => false
  | .errStatus c =>
    match c with
    | .unavailable => true
    | .deadlineExceeded => true
    | .aborted => true
    | _ => false

/-- The retry loop of `retryUnaryClientInterceptor` (src/unnamed/part_002,
lines 52-83) from a given attempt number: `f i` is what the invoker
returns on attempt `i`.  Returns the final result, the number of
invocations performed, and the list of sleeps (milliseconds) taken
between attempts. -/
def retryAux (f : Nat → RpcResult) (attempt : Nat) : RpcResult × Nat × List Nat :=
  if f attempt = .ok then (f attempt, 1, [])
  else if shouldRetry (f attempt) = false then (f attempt, 1, [])
  else if h : attempt < maxRetries then
    ((retryAux f (attempt + 1)).1, (retryAux f (attempt + 1)).2.1 + 1,
      retryDelay * (attempt + 1) :: (retryAux f (attempt + 1)).2.2)
  else (f attempt, 1, [])
termination_by maxRetries - attempt
decreasing_by omega

/-- The whole interceptor: the loop started at attempt 0. -/
def retryInterceptor (f : Nat → RpcResult) : RpcResult × Nat × List Nat :=
  retryAux f 0

/-- What the retry loop started at `attempt` guarantees of its outcome
`o = (result, invocations, delays)`: at least one invocation, attempts
bounded by the ceiling, the result is the last invocation's result, all
invocations before the last hit a transient error, a transient final
result means the ceiling was reached, and the delays grow linearly. -/
def RetrySpec (f : Nat → RpcResult) (attempt : Nat)
    (o : RpcResult × Nat × List Nat) : Prop :=
  1 ≤ o.2.1 ∧
  attempt + o.2.1 ≤ maxRetries + 1 ∧
  o.1 = f (attempt + o.2.1 - 1) ∧
  (∀ i, attempt ≤ i → i + 1 < attempt + o.2.1 → shouldRetry (f i) = true) ∧
  (shouldRetry (f (attempt + o.2.1 - 1)) = true → attempt + o.2.1 = maxRetries + 1) ∧
  o.2.2 = (List.range (o.2.1 - 1)).map (fun i => retryDelay * (attempt + i + 1))

end Retry

theorem dot_not_mem_rawURLEncode (p : GoStr) : 46 ∉ rawURLEncode p := by
  have hgen : ∀ (n : Nat) (q : GoStr), q.length ≤ n → 46 ∉ rawURLEncode q := by
    intro n
    induction n with
    | zero =>
      intro q hq
      have : q = [] := List.length_eq_zero.mp (Nat.le_zero.mp hq)
      simp [this, rawURLEncode]
    | succ n ih =>
      intro q hq
      match q with
      | [] => simp [rawURLEncode]
      | [x] =>
        simp [rawURLEncode]
        exact ⟨(b64Byte_ne_dot _).symm, (b64Byte_ne_dot _).symm⟩
      | [x, y] =>
        simp [rawURLEncode]
        exact ⟨(b64Byte_ne_dot _).symm, (b64Byte_ne_dot _).symm, (b64Byte_ne_dot _).symm⟩
      | x :: y :: z :: rest =>
        intro hmem
        simp only [rawURLEncode, List.mem_cons] at hmem
        rcases hmem with h | h | h | h | h
        · exact b64Byte_ne_dot _ h.symm
        · exact b64Byte_ne_dot _ h.symm
        · exact b64Byte_ne_dot _ h.symm
        · exact b64Byte_ne_dot _ h.symm
        · have hrest : rest.length ≤ n := by simp at hq; omega
          exact ih rest hrest h
  exact hgen p.length p le_rfl

theorem rawURLDecode_rawURLEncode (p : GoStr) (hp : ∀ b ∈ p, b < 256) :
    rawURLDecode (rawURLEncode p) = some p := by
  have hgen : ∀ (n : Nat) (q : GoStr), q.length ≤ n → (∀ b ∈ q, b < 256) →
      rawURLDecode (rawURLEncode q) = some q := by
    intro n
    induction n with
    | zero =>
      intro q hq _
      have : q = [] := List.length_eq_zero.mp (Nat.le_zero.mp hq)
      simp [this, rawURLEncode, rawURLDecode]
    | succ n ih =>
      intro q hq hb
      match q with
      | [] => simp [rawURLEncode, rawURLDecode]
      | [x] =>
        have hx : x < 256 := hb x (by simp)
        have e1 : sixBitOf (b64Byte (x / 4)) = some (x / 4) :=
          sixBitOf_b64Byte _ (by omega)
        have e2 : sixBitOf (b64Byte (x % 4 * 16)) = some (x % 4 * 16) :=
          sixBitOf_b64Byte _ (by omega)
        simp [rawURLEncode, rawURLDecode, e1, e2]
        omega
      | [x, y] =>
        have hx : x < 256 := hb x (by simp)
        have hy : y < 256 := hb y (by simp)
        have e1 : sixBitOf (b64Byte (x / 4)) = some (x / 4) :=
          sixBitOf_b64Byte _ (by omega)
        have e2 : sixBitOf (b64Byte (x % 4 * 16 + y / 16)) = some (x % 4 * 16 + y / 16) :=
          sixBitOf_b64Byte _ (by omega)
        have e3 : sixBitOf (b64Byte (y % 16 * 4)) = some (y % 16 * 4) :=
          sixBitOf_b64Byte _ (by omega)
        simp [rawURLEncode, rawURLDecode, e1, e2, e3]
        constructor
        · omega
        · omega
      | x :: y :: z :: rest =>
        have hx : x < 256 := hb x (by simp)
        have hy : y < 256 := hb y (by simp)
        have hz : z < 256 := hb z (by simp)
        have hrest : rawURLDecode (rawURLEncode rest) = some rest := by
          refine ih rest ?_ ?_
          · simp at hq; omega
          · intro b hbm
            exact hb b (by simp [hbm])
        have e1 : sixBitOf (b64Byte (x / 4)) = some (x / 4) :=
          sixBitOf_b64Byte _ (by omega)
        have e2 : sixBitOf (b64Byte (x % 4 * 16 + y / 16)) = some (x % 4 * 16 + y / 16) :=
          sixBitOf_b64Byte _ (by omega)
        have e3 : sixBitOf (b64Byte (y % 16 * 4 + z / 64)) = some (y % 16 * 4 + z / 64) :=
          sixBitOf_b64Byte _ (by omega)
        have e4 : sixBitOf (b64Byte (z % 64)) = some (z % 64) :=
          sixBitOf_b64Byte _ (by omega)
        simp [rawURLEncode, rawURLDecode, e1, e2, e3, e4, hrest]
        refine ⟨by omega, by omega, by omega⟩
  exact hgen p.length p le_rfl hp

theorem jwt3_split (h e s : GoStr) (hh : 46 ∉ h) (he : 46 ∉ e) (hs : 46 ∉ s) :
    strSplitDot (h ++ [46] ++ e ++ [46] ++ s) = [h, e, s] := by
  have hs1 : strSplitDot (46 :: s) = [] :: [s] := by
    simp [strSplitDot, strSplitDot_nodot s hs]
  have he1 : strSplitDot (e ++ 46 :: s) = (e ++ []) :: [s] :=
    strSplitDot_append e (46 :: s) he [] [s] hs1
  have he2 : strSplitDot (46 :: (e ++ 46 :: s)) = [] :: (e ++ []) :: [s] := by
    simp [strSplitDot, he1]
  have hh1 : strSplitDot (h ++ 46 :: (e ++ 46 :: s)) = (h ++ []) :: (e ++ []) :: [s] :=
    strSplitDot_append h (46 :: (e ++ 46 :: s)) hh [] ((e ++ []) :: [s]) he2
  have harr : h ++ [46] ++ e ++ [46] ++ s = h ++ 46 :: (e ++ 46 :: s) := by
    simp
  rw [harr, hh1]
  simp

theorem frontend_decompose_split3 (tok h p s : GoStr)
    (hsplit : strSplitDot tok = [h, p, s]) :
    Frontend.DecomposeJWT tok =
      (rawURLDecode p).map fun payloadJSON => ⟨payloadJSON, s⟩ := by
  unfold Frontend.DecomposeJWT
  rw [hsplit]

/-- Claim C1 fails as stated: `"a.!.c"` has exactly three dot-separated
segments yet `decompose` fails on it (the payload segment is not valid
base64url), and for the credential whose header IS the hardcoded one and
whose payload segment is `"QR"` (valid but non-canonical base64url, Go's
default decoder ignores the non-zero trailing bits), `decompose`
succeeds but `reassemble` returns a different string even though the
header used matches the credential's actual header. -/
theorem C1_counterexample :
    ((strSplitDot (bytesOfAscii "a.!.c")).length = 3 ∧
      Frontend.DecomposeJWT (bytesOfAscii "a.!.c") = none) ∧
    (Frontend.DecomposeJWT (Frontend.JWTHeaderB64 ++ bytesOfAscii ".QR.c") =
        some ⟨bytesOfAscii "A", bytesOfAscii "c"⟩ ∧
      Frontend.ReassembleJWT ⟨bytesOfAscii "A", bytesOfAscii "c"⟩ ≠
        Frontend.JWTHeaderB64 ++ bytesOfAscii ".QR.c") := by
  refine ⟨⟨by decide, by decide⟩, by decide, by decide⟩

/-- Claim C1 as amended: for every credential `h.p.s` whose header and
signature segments are dot-free and whose payload segment is the
base64url encoding of some byte sequence, `decompose` succeeds, yielding
that byte sequence and the verbatim signature, and
`reassemble(decompose(T))` is byte-identical to `T` whenever the
hardcoded header used during reassembly equals `T`'s actual header. -/
theorem C1_roundtrip (h p s : GoStr) (hh : 46 ∉ h) (hs : 46 ∉ s)
    (hp : ∀ b ∈ p, b < 256) :
    Frontend.DecomposeJWT (h ++ [46] ++ rawURLEncode p ++ [46] ++ s) = some ⟨p, s⟩ ∧
      (h = Frontend.JWTHeaderB64 →
        Frontend.ReassembleJWT ⟨p, s⟩ = h ++ [46] ++ rawURLEncode p ++ [46] ++ s) := by
  have hsplit := jwt3_split h (rawURLEncode p) s hh (dot_not_mem_rawURLEncode p) hs
  constructor
  · rw [frontend_decompose_split3 _ h (rawURLEncode p) s hsplit,
      rawURLDecode_rawURLEncode p hp]
    rfl
  · intro hEq
    rw [hEq]
    rfl

/-- Witness for C1_roundtrip at the hardcoded header, payload bytes
`"ab"` and signature `"c"`. -/
theorem C1_roundtrip_witness :
    (46 ∉ Frontend.JWTHeaderB64) ∧ (46 ∉ bytesOfAscii "c") ∧
    (∀ b ∈ bytesOfAscii "ab", b < 256) ∧
    (Frontend.DecomposeJWT
        (Frontend.JWTHeaderB64 ++ [46] ++ rawURLEncode (bytesOfAscii "ab") ++ [46] ++
          bytesOfAscii "c") =
        some ⟨bytesOfAscii "ab", bytesOfAscii "c"⟩ ∧
      (Frontend.JWTHeaderB64 = Frontend.JWTHeaderB64 →
        Frontend.ReassembleJWT ⟨bytesOfAscii "ab", bytesOfAscii "c"⟩ =
          Frontend.JWTHeaderB64 ++ [46] ++ rawURLEncode (bytesOfAscii "ab") ++ [46] ++
            bytesOfAscii "c")) :=
  ⟨by decide, by decide, by decide,
    C1_roundtrip (Frontend.JWTHeaderB64) (bytesOfAscii "ab") (bytesOfAscii "c")
      (by decide) (by decide) (by decide)⟩

/-- Claim C7: for the credential `aGVhZGVy.eyJzdWIiOiJ1MSJ9.c2ln`, the
shippingservice codec's `decompose` yields the payload text
`\x7b"sub":"u1"\x7d` and signature `c2ln`, and `reassemble` with header
`aGVhZGVy` reproduces the original string exactly. -/
theorem C7_scenario_a :
    Shipping.DecomposeJWT (bytesOfAscii "aGVhZGVy.eyJzdWIiOiJ1MSJ9.c2ln") =
      some ⟨bytesOfAscii "aGVhZGVy", bytesOfAscii "\x7b\"sub\":\"u1\"\x7d",
        bytesOfAscii "c2ln"⟩ ∧
    Shipping.ReassembleJWT ⟨bytesOfAscii "aGVhZGVy",
        bytesOfAscii "\x7b\"sub\":\"u1\"\x7d", bytesOfAscii "c2ln"⟩ =
      bytesOfAscii "aGVhZGVy.eyJzdWIiOiJ1MSJ9.c2ln" := by
  refine ⟨by decide, by decide⟩

/-- Claim C8: with the 2-way scheme, for every well-formed 3-segment
credential whose header segment differs from the hardcoded constant and
whose decomposition succeeds, reassembling the decomposition produces a
string of exactly three dot-separated segments that differs from the
original credential (and `ReassembleJWT` is a total function, so no
failure is raised). -/
theorem C8_header_mismatch (tok h p s : GoStr) (comps : Frontend.JWTComponents)
    (hsplit : strSplitDot tok = [h, p, s]) (hne : h ≠ Frontend.JWTHeaderB64)
    (hdec : Frontend.DecomposeJWT tok = some comps) :
    (strSplitDot (Frontend.ReassembleJWT comps)).length = 3 ∧
      Frontend.ReassembleJWT comps ≠ tok := by
  obtain ⟨pj, hrd, hcomps⟩ : ∃ pj, rawURLDecode p = some pj ∧ comps = ⟨pj, s⟩ := by
    rw [frontend_decompose_split3 tok h p s hsplit] at hdec
    cases hrd : rawURLDecode p with
    | none => rw [hrd] at hdec; simp at hdec
    | some pj =>
      rw [hrd] at hdec
      exact ⟨pj, rfl, (Option.some.inj hdec).symm⟩
  subst hcomps
  have hs46 : 46 ∉ s := mem_strSplitDot_nodot tok s (by rw [hsplit]; simp)
  have hsplit2 : strSplitDot (Frontend.ReassembleJWT ⟨pj, s⟩) =
      [Frontend.JWTHeaderB64, rawURLEncode pj, s] := by
    unfold Frontend.ReassembleJWT
    exact jwt3_split _ _ _ (by decide) (dot_not_mem_rawURLEncode pj) hs46
  constructor
  · rw [hsplit2]
    rfl
  · intro heq
    rw [heq, hsplit] at hsplit2
    injection hsplit2 with h1 _
    exact hne h1

/-- Witness for C8_header_mismatch at the Scenario A credential, whose
header `aGVhZGVy` is not the hardcoded constant. -/
theorem C8_header_mismatch_witness :
    (strSplitDot (bytesOfAscii "aGVhZGVy.eyJzdWIiOiJ1MSJ9.c2ln") =
      [bytesOfAscii "aGVhZGVy", bytesOfAscii "eyJzdWIiOiJ1MSJ9", bytesOfAscii "c2ln"]) ∧
    (bytesOfAscii "aGVhZGVy" ≠ Frontend.JWTHeaderB64) ∧
    (Frontend.DecomposeJWT (bytesOfAscii "aGVhZGVy.eyJzdWIiOiJ1MSJ9.c2ln") =
      some ⟨bytesOfAscii "\x7b\"sub\":\"u1\"\x7d", bytesOfAscii "c2ln"⟩) ∧
    ((strSplitDot (Frontend.ReassembleJWT
        ⟨bytesOfAscii "\x7b\"sub\":\"u1\"\x7d", bytesOfAscii "c2ln"⟩)).length = 3 ∧
      Frontend.ReassembleJWT ⟨bytesOfAscii "\x7b\"sub\":\"u1\"\x7d", bytesOfAscii "c2ln"⟩ ≠
        bytesOfAscii "aGVhZGVy.eyJzdWIiOiJ1MSJ9.c2ln") :=
  ⟨by decide, by decide, by decide,
    C8_header_mismatch (bytesOfAscii "aGVhZGVy.eyJzdWIiOiJ1MSJ9.c2ln")
      (bytesOfAscii "aGVhZGVy") (bytesOfAscii "eyJzdWIiOiJ1MSJ9") (bytesOfAscii "c2ln")
      ⟨bytesOfAscii "\x7b\"sub\":\"u1\"\x7d", bytesOfAscii "c2ln"⟩
      (by decide) (by decide) (by decide)⟩

/-- Claim C10: whenever the shippingservice terminal interceptor receives
a call carrying `x-jwt-payload`, the credential it reassembles has an
empty first (header) segment — the interceptor never sets the Header
field of its 3-way components — so it never equals any original
credential whose header segment was non-empty. -/
theorem C10_empty_header (md : Metadata) (p : GoStr) (ps : List GoStr)
    (hp : mdGet md "x-jwt-payload" = p :: ps) :
    Shipping.jwtServerToken md =
      some (Shipping.ReassembleJWT ⟨[], p, (mdGet md "x-jwt-sig").headD []⟩) ∧
    (strSplitDot (Shipping.ReassembleJWT
        ⟨[], p, (mdGet md "x-jwt-sig").headD []⟩)).head? = some [] ∧
    ∀ (orig h0 : GoStr) (rest : List GoStr), strSplitDot orig = h0 :: rest → h0 ≠ [] →
      Shipping.ReassembleJWT ⟨[], p, (mdGet md "x-jwt-sig").headD []⟩ ≠ orig := by
  have hhead : (strSplitDot (Shipping.ReassembleJWT
      ⟨[], p, (mdGet md "x-jwt-sig").headD []⟩)).head? = some [] := by
    simp [Shipping.ReassembleJWT, strSplitDot]
  refine ⟨?_, hhead, ?_⟩
  · simp [Shipping.jwtServerToken, hp]
  · intro orig h0 rest hsp hne heq
    rw [heq, hsp] at hhead
    simp at hhead
    exact hne hhead

/-- Witness for C10_empty_header at a call carrying payload `"pl"` and no
signature field. -/
theorem C10_empty_header_witness :
    (mdGet [("x-jwt-payload", bytesOfAscii "pl")] "x-jwt-payload" =
      bytesOfAscii "pl" :: []) ∧
    (Shipping.jwtServerToken [("x-jwt-payload", bytesOfAscii "pl")] =
      some (Shipping.ReassembleJWT ⟨[], bytesOfAscii "pl",
        (mdGet [("x-jwt-payload", bytesOfAscii "pl")] "x-jwt-sig").headD []⟩) ∧
    (strSplitDot (Shipping.ReassembleJWT ⟨[], bytesOfAscii "pl",
        (mdGet [("x-jwt-payload", bytesOfAscii "pl")] "x-jwt-sig").headD []⟩)).head? =
      some [] ∧
    ∀ (orig h0 : GoStr) (rest : List GoStr), strSplitDot orig = h0 :: rest → h0 ≠ [] →
      Shipping.ReassembleJWT ⟨[], bytesOfAscii "pl",
        (mdGet [("x-jwt-payload", bytesOfAscii "pl")] "x-jwt-sig").headD []⟩ ≠ orig) :=
  ⟨by decide, C10_empty_header [("x-jwt-payload", bytesOfAscii "pl")]
    (bytesOfAscii "pl") [] (by decide)⟩

/-- Claim C2 fails as stated: when the inbound `x-jwt-payload` value is
the empty string, the relay captures the pair (`""`, Sig) but its
outbound call emits nothing at all — the pass-through guard requires a
non-empty payload and the whole-token fallback finds no token. -/
theorem C2_counterexample :
    (Checkout.serverCapture
        [("x-jwt-payload", ([] : GoStr)), ("x-jwt-sig", bytesOfAscii "sg")]).jwtPayload =
      some [] ∧
    (Checkout.serverCapture
        [("x-jwt-payload", ([] : GoStr)), ("x-jwt-sig", bytesOfAscii "sg")]).jwtSig =
      some (bytesOfAscii "sg") ∧
    Checkout.clientEmit true
      (Checkout.serverCapture
        [("x-jwt-payload", ([] : GoStr)), ("x-jwt-sig", bytesOfAscii "sg")]) = [] := by
  refine ⟨by decide, by decide, by decide⟩

/-- Claim C2 as amended: for every pair of components captured from an
inbound call's `x-jwt-payload` and `x-jwt-sig` fields with the decomposed
scheme active, provided the captured payload is non-empty, the relay's
outbound call emits `x-jwt-payload` and `x-jwt-sig` values byte-identical
to the inbound ones (the emitted values are the captured byte strings
themselves: nothing is decoded or encoded). -/
theorem C2_passthrough (md : Metadata) (p : GoStr) (ps : List GoStr)
    (hp : mdGet md "x-jwt-payload" = p :: ps) (hne : p ≠ []) :
    Checkout.clientEmit true (Checkout.serverCapture md) =
      [("x-jwt-payload", p), ("x-jwt-sig", (mdGet md "x-jwt-sig").headD [])] := by
  unfold Checkout.serverCapture
  rw [hp]
  simp [Checkout.clientEmit, hne]

/-- Witness for C2_passthrough at a call carrying payload `"pl"` and
signature `"sg"`. -/
theorem C2_passthrough_witness :
    (mdGet [("x-jwt-payload", bytesOfAscii "pl"), ("x-jwt-sig", bytesOfAscii "sg")]
        "x-jwt-payload" = bytesOfAscii "pl" :: []) ∧
    (bytesOfAscii "pl" ≠ []) ∧
    Checkout.clientEmit true
        (Checkout.serverCapture
          [("x-jwt-payload", bytesOfAscii "pl"), ("x-jwt-sig", bytesOfAscii "sg")]) =
      [("x-jwt-payload", bytesOfAscii "pl"),
        ("x-jwt-sig", (mdGet [("x-jwt-payload", bytesOfAscii "pl"),
          ("x-jwt-sig", bytesOfAscii "sg")] "x-jwt-sig").headD [])] :=
  ⟨by decide, by decide,
    C2_passthrough [("x-jwt-payload", bytesOfAscii "pl"), ("x-jwt-sig", bytesOfAscii "sg")]
      (bytesOfAscii "pl") [] (by decide) (by decide)⟩

/-- Claim C3 is the spec's intent but the code violates it: on an inbound
call whose metadata carries `x-jwt-static` but no `x-jwt-session`, the
4-way checkoutservice server interceptor evaluates
`md.Get("x-jwt-session")[0]` on an empty slice, which panics (modelled as
the `none` outcome) instead of continuing the call via any fallback —
whatever the (missing) 4-way reassembler does. -/
theorem C3_missing_session_panics (reassemble4 : Components4 → Option GoStr) :
    CheckoutWire.serverOutcome reassemble4 [("x-jwt-static", bytesOfAscii "x")] =
      none := by
  rfl

/-- Claim C4: for every non-empty credential that does not consist of
exactly three dot-separated segments, the in-repository 2-way
`DecomposeJWT` fails, and the originating interceptor holding it with
the scheme active (its 4-way codec failing on the token too, as the
spec's FormatError clause requires of every codec) emits exactly the
single fallback field `authorization: Bearer <credential>` and no
decomposed field. -/
theorem C4_malformed_fallback (decompose4 : GoStr → Option Components4) (tok : GoStr)
    (hne : tok ≠ []) (hlen : (strSplitDot tok).length ≠ 3)
    (h4 : decompose4 tok = none) :
    Frontend.DecomposeJWT tok = none ∧
      FrontendWire.clientEmit decompose4 true tok =
        [("authorization", bearerBytes ++ tok)] := by
  constructor
  · unfold Frontend.DecomposeJWT
    rcases hsp : strSplitDot tok with _ | ⟨a, _ | ⟨b, _ | ⟨c, _ | d⟩⟩⟩ <;>
      simp_all [strSplitDot_ne_nil]
  · simp [FrontendWire.clientEmit, hne, h4]

/-- Witness for C4_malformed_fallback at the dotless credential `"abc"`
and a codec failing on it. -/
theorem C4_malformed_fallback_witness :
    (bytesOfAscii "abc" ≠ []) ∧ ((strSplitDot (bytesOfAscii "abc")).length ≠ 3) ∧
    ((fun _ => (none : Option Components4)) (bytesOfAscii "abc") = none) ∧
    (Frontend.DecomposeJWT (bytesOfAscii "abc") = none ∧
      FrontendWire.clientEmit (fun _ => none) true (bytesOfAscii "abc") =
        [("authorization", bearerBytes ++ bytesOfAscii "abc")]) :=
  ⟨by decide, by decide, rfl,
    C4_malformed_fallback (fun _ => none) (bytesOfAscii "abc")
      (by decide) (by decide) rfl⟩

/-- Claim C5: with the decomposition flag false, for every credential
present on the call — malformed or not, whatever the 4-way codec would
do — the originating interceptor emits exactly the single fallback field
`authorization: Bearer <credential>` and never any decomposed field. -/
theorem C5_disabled_fallback (decompose4 : GoStr → Option Components4) (tok : GoStr)
    (hne : tok ≠ []) :
    FrontendWire.clientEmit decompose4 false tok =
      [("authorization", bearerBytes ++ tok)] ∧
    ∀ kv ∈ FrontendWire.clientEmit decompose4 false tok, kv.1 = "authorization" := by
  constructor
  · simp [FrontendWire.clientEmit, hne]
  · intro kv hkv
    simp [FrontendWire.clientEmit, hne] at hkv
    rw [hkv]

/-- Witness for C5_disabled_fallback at the malformed credential
`"not.a"`. -/
theorem C5_disabled_fallback_witness :
    (bytesOfAscii "not.a" ≠ []) ∧
    (FrontendWire.clientEmit (fun _ => some ⟨[], [], [], []⟩) false (bytesOfAscii "not.a") =
        [("authorization", bearerBytes ++ bytesOfAscii "not.a")] ∧
      ∀ kv ∈ FrontendWire.clientEmit (fun _ => some ⟨[], [], [], []⟩) false
          (bytesOfAscii "not.a"), kv.1 = "authorization") :=
  ⟨by decide,
    C5_disabled_fallback (fun _ => some ⟨[], [], [], []⟩) (bytesOfAscii "not.a")
      (by decide)⟩

/-- Claim C6 is the spec's intent but the paymentservice code violates
it: with no credential available (`jwt` null), `addCompressedJWT` still
emits a credential-bearing field, `authorization: Bearer null` — the JS
template literal interpolates null as text — whether or not the scheme
is active; the checkoutservice relay, by contrast, honours the claim and
emits nothing from an empty call context. -/
theorem C6_no_credential (enabled : Bool) :
    Payment.addCompressedJWT enabled none =
      [("authorization", bytesOfAscii "Bearer null")] ∧
    Checkout.clientEmit enabled ⟨none, none, none⟩ = [] := by
  cases enabled
  · exact ⟨by decide, by decide⟩
  · exact ⟨by decide, by decide⟩

theorem retry_leaf (f : Nat → Retry.RpcResult) (attempt : Nat)
    (h1 : attempt ≤ Retry.maxRetries)
    (hstop : Retry.shouldRetry (f attempt) = false ∨ attempt = Retry.maxRetries) :
    Retry.RetrySpec f attempt (f attempt, 1, []) := by
  unfold Retry.RetrySpec
  refine ⟨le_rfl, ?_, ?_, ?_, ?_, ?_⟩
  · show attempt + 1 ≤ Retry.maxRetries + 1
    omega
  · show f attempt = f (attempt + 1 - 1)
    congr 1
  · intro i hi1 hi2
    have hi2a : i + 1 < attempt + 1 := hi2
    exact absurd hi2a (by omega)
  · intro hcon
    have hcon0 : Retry.shouldRetry (f (attempt + 1 - 1)) = true := hcon
    rw [Nat.add_sub_cancel] at hcon0
    rcases hstop with hs | hs
    · rw [hs] at hcon0
      cases hcon0
    · show attempt + 1 = Retry.maxRetries + 1
      omega
  · show ([] : List Nat) =
      (List.range (1 - 1)).map fun i => Retry.retryDelay * (attempt + i + 1)
    simp

theorem retryAux_spec (f : Nat → Retry.RpcResult) :
    ∀ (fuel attempt : Nat), attempt ≤ Retry.maxRetries →
      Retry.maxRetries - attempt ≤ fuel →
      Retry.RetrySpec f attempt (Retry.retryAux f attempt) := by
  intro fuel
  induction fuel with
  | zero =>
    intro attempt h1 h2
    rw [Retry.retryAux]
    by_cases hok : f attempt = .ok
    · rw [if_pos hok]
      exact retry_leaf f attempt h1 (Or.inl (by rw [hok]; rfl))
    · rw [if_neg hok]
      by_cases hsr : Retry.shouldRetry (f attempt) = false
      · rw [if_pos hsr]
        exact retry_leaf f attempt h1 (Or.inl hsr)
      · rw [if_neg hsr, dif_neg (show ¬ attempt < Retry.maxRetries by omega)]
        exact retry_leaf f attempt h1 (Or.inr (by omega))
  | succ n ih =>
    intro attempt h1 h2
    rw [Retry.retryAux]
    by_cases hok : f attempt = .ok
    · rw [if_pos hok]
      exact retry_leaf f attempt h1 (Or.inl (by rw [hok]; rfl))
    · rw [if_neg hok]
      by_cases hsr : Retry.shouldRetry (f attempt) = false
      · rw [if_pos hsr]
        exact retry_leaf f attempt h1 (Or.inl hsr)
      · by_cases hlt : attempt < Retry.maxRetries
        · rw [if_neg hsr, dif_pos hlt]
          have ihall := ih (attempt + 1) (by omega) (by omega)
          unfold Retry.RetrySpec at ihall
          obtain ⟨ih1, ih2, ih3, ih4, ih5, ih6⟩ := ihall
          unfold Retry.RetrySpec
          refine ⟨?_, ?_, ?_, ?_, ?_, ?_⟩
          · show 1 ≤ (Retry.retryAux f (attempt + 1)).2.1 + 1
            omega
          · show attempt + ((Retry.retryAux f (attempt + 1)).2.1 + 1) ≤
              Retry.maxRetries + 1
            omega
          · show (Retry.retryAux f (attempt + 1)).1 =
              f (attempt + ((Retry.retryAux f (attempt + 1)).2.1 + 1) - 1)
            rw [ih3]
            congr 1
            omega
          · intro i hi1 hi2
            have hi2a : i + 1 < attempt + ((Retry.retryAux f (attempt + 1)).2.1 + 1) :=
              hi2
            by_cases hieq : i = attempt
            · subst hieq
              simpa using hsr
            · exact ih4 i (by omega) (by omega)
          · intro hcon
            have hcon0 : Retry.shouldRetry
                (f (attempt + ((Retry.retryAux f (attempt + 1)).2.1 + 1) - 1)) = true :=
              hcon
            rw [show attempt + ((Retry.retryAux f (attempt + 1)).2.1 + 1) - 1 =
                attempt + 1 + (Retry.retryAux f (attempt + 1)).2.1 - 1 from by omega]
              at hcon0
            show attempt + ((Retry.retryAux f (attempt + 1)).2.1 + 1) =
              Retry.maxRetries + 1
            have := ih5 hcon0
            omega
          · show Retry.retryDelay * (attempt + 1) :: (Retry.retryAux f (attempt + 1)).2.2 =
              (List.range ((Retry.retryAux f (attempt + 1)).2.1 + 1 - 1)).map
                (fun i => Retry.retryDelay * (attempt + i + 1))
            rw [Nat.add_sub_cancel]
            obtain ⟨m, hm⟩ : ∃ m, (Retry.retryAux f (attempt + 1)).2.1 = m + 1 :=
              ⟨(Retry.retryAux f (attempt + 1)).2.1 - 1, by omega⟩
            rw [ih6, hm, Nat.add_sub_cancel, List.range_succ_eq_map, List.map_cons,
              List.map_map]
            refine List.cons_eq_cons.mpr ⟨rfl, ?_⟩
            apply List.map_congr_left
            intro i _
            simp only [Function.comp_apply]
            congr 1
            omega
        · rw [if_neg hsr, dif_neg hlt]
          exact retry_leaf f attempt h1 (Or.inr (by omega))

/-- Claim C9: for every behaviour of the underlying invoker, the retry
interceptor invokes it between 1 and `maxRetries + 1 = 4` times, its
result is the last invocation's result, every invocation before the last
returned a transient (Unavailable, DeadlineExceeded or Aborted) status
error, it only ever stops on a transient error when all 4 attempts are
exhausted (so it stops immediately on success or a non-transient error),
and the delays slept between attempts are `retryDelay * 1, retryDelay *
2, ...` — linear in the attempt number. -/
theorem C9_retry_bounded (f : Nat → Retry.RpcResult) :
    1 ≤ (Retry.retryInterceptor f).2.1 ∧
    (Retry.retryInterceptor f).2.1 ≤ Retry.maxRetries + 1 ∧
    (Retry.retryInterceptor f).1 = f ((Retry.retryInterceptor f).2.1 - 1) ∧
    (∀ i, i + 1 < (Retry.retryInterceptor f).2.1 →
      Retry.shouldRetry (f i) = true) ∧
    (Retry.shouldRetry (f ((Retry.retryInterceptor f).2.1 - 1)) = true →
      (Retry.retryInterceptor f).2.1 = Retry.maxRetries + 1) ∧
    (Retry.retryInterceptor f).2.2 =
      (List.range ((Retry.retryInterceptor f).2.1 - 1)).map
        (fun i => Retry.retryDelay * (i + 1)) := by
  obtain ⟨h1, h2, h3, h4, h5, h6⟩ :=
    retryAux_spec f Retry.maxRetries 0 (Nat.zero_le _) (by omega)
  simp only [Nat.zero_add] at h1 h2 h3 h4 h5 h6
  exact ⟨h1, h2, h3, fun i hi => h4 i (Nat.zero_le i) hi, h5, h6⟩

end JwtSplit
